import Mathlib

/-!
# Verification of the duncan one-off job subsystem (`chronos` package)

Shallow embedding of the `chronos` package of betterdoctor/duncan:
task-name derivation (`sanitizedCommand`, the `TaskName` field built in
`RunCommand`), the polling state machine (`handleTask`), the paginated
catalog fetch (`scheduledTasks`), submission (`launchChronosOneOffCommand`)
and log retrieval (`printLogs`, `openLogPage`).

Conventions of the embedding:
- Network calls are inputs: each call site takes the call's result as an
  argument (`Option`/`Except` values, `none`/`.error` for a transport error).
- `os.Exit(-1)` and Go runtime panics (nil-pointer dereference, index out
  of range) are explicit outcome constructors.
- The `mesos` package of the repository is not part of the sources given;
  the pieces of it this package uses (`Task`, `Task.Duration`, `Tasks.TasksFor`,
  the `TASK_*` state constants, `Logs`) are modelled from the spec and
  marked as such in their doc comments.
-/

namespace Duncan

/-! ## Go string primitives used by `sanitizedCommand` -/

/-- The character class `[a-z]` of the Go regexp in `sanitizedCommand`. -/
def isLowerAZ (c : Char) : Bool := 'a' ≤ c && c ≤ 'z'

/-- Go `unicode.IsSpace` on the characters relevant here
(`strings.TrimSpace` trims these from both ends). -/
def goIsSpace (c : Char) : Bool :=
  c = ' ' || c = '\t' || c = '\n' || c = Char.ofNat 11 || c = Char.ofNat 12 ||
  c = '\r' || c = Char.ofNat 133 || c = Char.ofNat 160

/-- Go `strings.TrimSpace`, on character lists. -/
def goTrimSpace (l : List Char) : List Char :=
  ((l.dropWhile goIsSpace).reverse.dropWhile goIsSpace).reverse

/-- Go `strings.Split(s, sep)` for a one-character separator `sep`:
splits at every occurrence, keeping empty fields. -/
def splitOnChar (sep : Char) : List Char → List (List Char)
  | [] => [[]]
  | c :: rest =>
    let r := splitOnChar sep rest
    if c = sep then [] :: r
    else
      match r with
      | [] => [[c]]
      | x :: xs => (c :: x) :: xs

/-- Go `strings.Join(elems, sep)`, on character lists. -/
def goJoinL (elems : List (List Char)) (sep : List Char) : List Char :=
  match elems with
  | [] => []
  | x :: xs => xs.foldl (fun a b => a ++ sep ++ b) x

/-- Go `regexp.MustCompile("[a-z]*").FindAllString(s, -1)`, on character
lists.  Mirrors `Regexp.allMatches`: at each position the leftmost match of
`[a-z]*` is the maximal lowercase run starting there (possibly empty); an
empty match that begins exactly where the previous match ended is skipped,
and after an empty match the scan advances one character.  The state is
`some acc` while inside a lowercase run (`acc` holds the run reversed) —
equivalently, the previous match ends at the current position — and `none`
when an empty match at the current position would be accepted. -/
def goFindAllLower : List Char → Option (List Char) → List (List Char)
  | [], some acc => [acc.reverse]
  | [], none => [[]]
  | c :: rest, some acc =>
    if isLowerAZ c then goFindAllLower rest (some (c :: acc))
    else acc.reverse :: goFindAllLower rest none
  | c :: rest, none =>
    if isLowerAZ c then goFindAllLower rest (some [c])
    else [] :: goFindAllLower rest none

/-- The body of the loop in `sanitizedCommand`: for one whitespace-split
token `c`, `strings.Join(re.FindAllString(strings.TrimSpace(c), -1), "-")`. -/
def tokenSegment (tok : List Char) : List Char :=
  goJoinL (goFindAllLower (goTrimSpace tok) none) ['-']

/-- `chronos.sanitizedCommand`: split the command on `" "`, transform each
token with `tokenSegment`, and join the results with `"-"`. -/
def sanitizedCommand (cmd : String) : String :=
  ⟨goJoinL ((splitOnChar ' ' cmd.toList).map tokenSegment) ['-']⟩

/-- The `TaskName` field built in `chronos.RunCommand`:
`strings.Join([]string{app, env, sanitizedCommand(cmd)}, "-")`. -/
def TaskName (app env cmd : String) : String :=
  ⟨goJoinL [app.toList, env.toList, (sanitizedCommand cmd).toList] ['-']⟩

/-! ## Mesos task records (the parts of the `mesos` package this code uses) -/

/-- Modelled from the spec: the `mesos` package is not among the given
sources.  A job record carries identifier/name, current state, and optional
start and stop timestamps (absent pre-execution); timestamps are in seconds.
The working-directory path and host identifier are consumed only through
`Task.LogDirectory` / `Task.SlaveIP`, whose results appear as explicit
inputs of the log-retrieval models below. -/
structure Task where
  name : String
  state : String
  started : Option Int
  stopped : Option Int
deriving DecidableEq, Repr

/-- Modelled from the spec: `mesos.TaskRunning` (state-constant strings of
the missing `mesos` package; only their distinctness matters here). -/
def TaskRunning : String := "TASK_RUNNING"

/-- Modelled from the spec: `mesos.TaskStaging`. -/
def TaskStaging : String := "TASK_STAGING"

/-- Modelled from the spec: `mesos.TaskFinished`. -/
def TaskFinished : String := "TASK_FINISHED"

/-- Modelled from the spec: `mesos.TaskFailed`. -/
def TaskFailed : String := "TASK_FAILED"

/-- Modelled from the spec: `mesos.TaskKilled`. -/
def TaskKilled : String := "TASK_KILLED"

/-- Error of `Task.Duration`. -/
inductive DurationError where
  | missingTimestamp
deriving DecidableEq, Repr

/-- Modelled from the spec: `mesos.Task.Duration` — "computed duration
equals T1−T0 in seconds" and "fails with `MissingTimestamp` if either start
or stop timestamp is absent on a record expected to carry both". -/
def Task.Duration (t : Task) : Except DurationError Int :=
  match t.started, t.stopped with
  | some t0, some t1 => .ok (t1 - t0)
  | _, _ => .error .missingTimestamp

/-- Modelled from the spec: `mesos.Tasks.TasksFor` — "filters to records
whose name equals the requested name and returns them in the order the
remote API provided". -/
def TasksFor (name : String) (tasks : List Task) : List Task :=
  tasks.filter fun t => t.name = name

/-! ## The polling state machine `handleTask` -/

/-- Errors `handleTask` can return (each constructor is one `return err` /
`return fmt.Errorf(...)` site). -/
inductive TaskError where
  | fetchError
  | missingTimestamp
  | taskFailed (dur : Int)
  | taskKilled (dur : Int)
  | unhandledState (s : String)
deriving DecidableEq, Repr

/-- Observable side effects of one pass of the `handleTask` loop, in
program order: the `"."` progress print, the `task state:` print, the
`openLogPage` call, the `task finished:` print, and the `printLogs` call. -/
inductive Event where
  | progressDot
  | stateShown (s : String)
  | logPageOpened (t : Task)
  | finishedMsg (dur : Int)
  | logsPrinted (t : Task)
deriving DecidableEq, Repr

/-- Result of one `scheduledTasks(name)` call inside the loop: the filtered
task list, or a transport/decode error. -/
inductive Poll where
  | ok (tasks : List Task)
  | err
deriving DecidableEq, Repr

/-- The `switch task.State` body of `handleTask` applied to the selected
record `task := tasks[0]`, together with the `task state:` print that
precedes it.  Returns the emitted events and `none` (`continue`: poll
again) or `some r` (the loop returns with result `r`). -/
def inspectTask (t : Task) : List Event × Option (Except TaskError Unit) :=
  if t.state = TaskRunning then
    ([.stateShown t.state, .logPageOpened t], none)
  else if t.state = TaskStaging then
    ([.stateShown t.state], none)
  else if t.state = TaskFinished then
    match t.Duration with
    | .error _ =>
      ([.stateShown t.state, .logPageOpened t], some (.error .missingTimestamp))
    | .ok dur =>
      ([.stateShown t.state, .logPageOpened t, .finishedMsg dur, .logsPrinted t],
        some (.ok ()))
  else if t.state = TaskFailed then
    match t.Duration with
    | .error _ =>
      ([.stateShown t.state, .logPageOpened t, .logsPrinted t],
        some (.error .missingTimestamp))
    | .ok dur =>
      ([.stateShown t.state, .logPageOpened t, .logsPrinted t],
        some (.error (.taskFailed dur)))
  else if t.state = TaskKilled then
    match t.Duration with
    | .error _ => ([.stateShown t.state], some (.error .missingTimestamp))
    | .ok dur => ([.stateShown t.state], some (.error (.taskKilled dur)))
  else ([.stateShown t.state], some (.error (.unhandledState t.state)))

/-- One iteration of the `handleTask` loop body on the result of its
`scheduledTasks(name)` call: a fetch error returns it; `len(tasks) == count`
prints `"."` and continues; `len(tasks) == count+1` inspects `tasks[0]`;
any other length falls through both `if`s and loops again silently. -/
def handleOne (count : Nat) : Poll → List Event × Option (Except TaskError Unit)
  | .err => ([], some (.error .fetchError))
  | .ok tasks =>
    if tasks.length = count then ([.progressDot], none)
    else if tasks.length = count + 1 then
      match tasks with
      | [] => ([], none)
      | t :: _ => inspectTask t
    else ([], none)

/-- `chronos.handleTask(name, count)` run over a finite prefix of the
polling loop: `polls` lists the successive results of `scheduledTasks(name)`.
Returns all events emitted, and `some r` if the loop returned with `r`
within the prefix, `none` if it was still looping after consuming it. -/
def handleTask (count : Nat) : List Poll → List Event × Option (Except TaskError Unit)
  | [] => ([], none)
  | p :: ps =>
    match handleOne count p with
    | (evs, some r) => (evs, some r)
    | (evs, none) =>
      let r2 := handleTask count ps
      (evs ++ r2.1, r2.2)

/-! ## Paginated catalog fetch `scheduledTasks` -/

/-- The pagination loop of `chronos.scheduledTasks`, with the remote
catalog as a function from offset to returned page and an explicit fuel
bound on the number of requests.  Mirrors the loop: fetch `server offset`,
append the page to the accumulator, and if the page has at least 100
records continue at `offset + 100`, otherwise break.  Returns the
accumulated records and the list of offsets requested, in request order.
Fuel `0` stops early with nothing requested (the theorems show the result
is fuel-independent once the fuel exceeds the index of the short page). -/
def fetchPages (server : Nat → List Task) : Nat → Nat → List Task × List Nat
  | 0, _ => ([], [])
  | fuel + 1, offset =>
    let page := server offset
    if 100 ≤ page.length then
      let r2 := fetchPages server fuel (offset + 100)
      (page ++ r2.1, offset :: r2.2)
    else (page, [offset])

/-- `chronos.scheduledTasks(name)`: paginate the catalog from offset 0,
then filter the accumulated records by name with `TasksFor`. -/
def scheduledTasks (server : Nat → List Task) (fuel : Nat) (name : String) :
    List Task :=
  TasksFor name (fetchPages server fuel 0).1

/-! ## Submission `launchChronosOneOffCommand` -/

instance : DecidableEq (Except TaskError Unit) := fun a b =>
  match a, b with
  | .ok x, .ok y => decidable_of_iff (x = y) (by simp)
  | .ok _, .error _ => isFalse fun h => Except.noConfusion h
  | .error _, .ok _ => isFalse fun h => Except.noConfusion h
  | .error e, .error f => decidable_of_iff (e = f) (by simp)

/-- The scheduler's response to the submission POST: status code and body. -/
structure PostResp where
  statusCode : Nat
  body : String
deriving DecidableEq, Repr

/-- How a `launchChronosOneOffCommand` run ends, in the order the early
returns occur in the code. -/
inductive LaunchOutcome where
  | baselineFetchFailed
  | renderFailed
  | postTransportError
  | rejected (body : String)
  | monitored (r : List Event × Option (Except TaskError Unit))
deriving DecidableEq, Repr

/-- `chronos.launchChronosOneOffCommand(url, task)`: fetch the baseline
`scheduledTasks(task.TaskName)` (given here as `baselineFetch`, `none` for
an error), render the task JSON (`renderRes`), POST it (`postRes`, `none`
for a transport error); any status other than 204 No Content returns an
error carrying the response body; otherwise run
`handleTask(task.TaskName, len(tasks))`, whose polling trace is `polls`. -/
def launchChronosOneOffCommand (baselineFetch : Option (List Task))
    (renderRes : Except String String) (postRes : Option PostResp)
    (polls : List Poll) : LaunchOutcome :=
  match baselineFetch with
  | none => .baselineFetchFailed
  | some tasks =>
    match renderRes with
    | .error _ => .renderFailed
    | .ok _ =>
      match postRes with
      | none => .postTransportError
      | some resp =>
        if resp.statusCode ≠ 204 then .rejected resp.body
        else .monitored (handleTask tasks.length polls)

/-! ## Log retrieval `printLogs` and `openLogPage` -/

/-- Modelled from the spec: `mesos.Logs` — "returns JSON with a single
text field containing raw log content". -/
structure Logs where
  data : String
deriving DecidableEq, Repr

/-- The worker's response to the log-file GET: status code, status text,
and the result of decoding the body into `Logs` (`none` = decode error). -/
structure GetResp where
  statusCode : Nat
  status : String
  decoded : Option Logs
deriving DecidableEq, Repr

/-- How a `printLogs` call ends.  `exitProcess` is `os.Exit(-1)`;
`softFail` is the plain `return` after printing the `SlaveIP` error;
`nilPanic` is the Go nil-pointer dereference of reading `resp.Status` when
`http.Get` returned an error and no response; `printed` carries the stream
chosen, whether the `could not fetch logs` diagnostic was printed, and the
filtered log lines printed. -/
inductive PrintLogsOutcome where
  | exitProcess
  | softFail
  | nilPanic
  | printed (stream : String) (diagnosed : Bool) (lines : List String)
deriving DecidableEq, Repr

/-- Substring containment on character lists (Go regexp `MatchString` with
a literal pattern). -/
def containsSub (pat : List Char) : List Char → Bool
  | [] => pat.isEmpty
  | c :: rest => pat.isPrefixOf (c :: rest) || containsSub pat rest

/-- The `regexp.MustCompile("cpp:").MatchString(l)` noise filter:
substring containment. -/
def containsCpp (l : String) : Bool := containsSub "cpp:".toList l.toList

/-- `chronos.printLogs(t)`.  The results of `t.LogDirectory()`,
`t.SlaveIP()` (functions of the missing `mesos` package) and of the
`http.Get` are inputs.  Mirrors the code: a `LogDirectory` error prints and
calls `os.Exit(-1)`; the stream is `stdout` iff the state is
`TaskFinished`; a `SlaveIP` error prints and returns; if the GET failed or
the status is not 200 OK the diagnostic reads `resp.Status` — a nil
dereference when there is no response — and the function then decodes
`resp.Body` regardless; a decode error is printed and leaves `Logs` at its
zero value; finally the lines of the data, minus those matching `cpp:`,
are printed. -/
def printLogs (state : String) (dirRes : Except String String)
    (ipRes : Except String String) (getRes : Option GetResp) :
    PrintLogsOutcome :=
  match dirRes with
  | .error _ => .exitProcess
  | .ok _ =>
    let out := if state = TaskFinished then "stdout" else "stderr"
    match ipRes with
    | .error _ => .softFail
    | .ok _ =>
      match getRes with
      | none => .nilPanic
      | some resp =>
        let diagnosed := resp.statusCode ≠ 200
        let data :=
          match resp.decoded with
          | none => ""
          | some l => l.data
        .printed out diagnosed
          (((splitOnChar '\n' data.toList).map fun l => (⟨l⟩ : String)).filter
            fun l => !containsCpp l)

/-- Go `strings.Split(s, sep)` for a non-empty multi-character separator,
on character lists; `acc` holds the current field reversed. -/
def goSplitSub (sep : List Char) : List Char → List Char → List (List Char)
  | [], acc => [acc.reverse]
  | c :: rest, acc =>
    if sep.isPrefixOf (c :: rest) then
      acc.reverse :: goSplitSub sep (List.drop (sep.length - 1) rest) []
    else goSplitSub sep rest (c :: acc)
termination_by l _ => l.length
decreasing_by
  all_goals simp_wf
  all_goals omega

/-- How an `openLogPage` call ends.  `exitProcess` is the `os.Exit(-1)` on
a `LogDirectory` error; `panicIndex` is the Go index-out-of-range panic of
`p[1]` when the directory does not contain the slaves marker; `opened`
carries the slave id extracted from the path and whether starting the
`open` command failed (printing a diagnostic either way and returning
normally). -/
inductive OpenLogOutcome where
  | exitProcess
  | panicIndex
  | opened (slaveID : String) (startFailed : Bool)
deriving DecidableEq, Repr

/-- `chronos.openLogPage(t)`: on a `LogDirectory` error print and
`os.Exit(-1)`; otherwise split the directory on
`"/var/lib/mesos/slave/slaves/"`, take element 1 (panicking when the
marker is absent), take its first `/`-segment as the slave id, and spawn
`open` on the browse URL (`startErr` is whether `cmd.Start()` failed). -/
def openLogPage (dirRes : Except String String) (startErr : Bool) :
    OpenLogOutcome :=
  match dirRes with
  | .error _ => .exitProcess
  | .ok dir =>
    match goSplitSub "/var/lib/mesos/slave/slaves/".toList dir.toList [] with
    | [] => .panicIndex
    | [_] => .panicIndex
    | _ :: second :: _ =>
      .opened ⟨(splitOnChar '/' second).headD []⟩ startErr

/-! ## Concrete fixtures for witnesses -/

/-- A running record (no timestamps yet). -/
def wRun : Task :=
  { name := "foo-production-rake-stuff-junk", state := TaskRunning,
    started := none, stopped := none }

/-- A finished record with start 0 and stop 12. -/
def wFin : Task :=
  { name := "foo-production-rake-stuff-junk", state := TaskFinished,
    started := some 0, stopped := some 12 }

/-- A failed record with start 3 and stop 10. -/
def wFail : Task :=
  { name := "foo-production-rake-stuff-junk", state := TaskFailed,
    started := some 3, stopped := some 10 }

/-- A killed record. -/
def wKill : Task :=
  { name := "foo-production-rake-stuff-junk", state := TaskKilled,
    started := some 3, stopped := some 10 }

/-- A record in a state the switch does not handle. -/
def wLost : Task :=
  { name := "foo-production-rake-stuff-junk", state := "TASK_LOST",
    started := none, stopped := none }

/-- A finished record missing its timestamps. -/
def wNoTs : Task :=
  { name := "foo-production-rake-stuff-junk", state := TaskFinished,
    started := none, stopped := none }

/-- An old same-named record forming the baseline. -/
def wOld : Task :=
  { name := "foo-production-rake-stuff-junk", state := TaskFinished,
    started := some 0, stopped := some 1 }

/-- Recognizes the `openLogPage` side-effect event. -/
def isOpenEvent : Event → Bool
  | .logPageOpened _ => true
  | _ => false

/-- A catalog server for the pagination witness: a full page of 100 records
at offset 0, then a short page. -/
def wServer : Nat → List Task :=
  fun o => if o = 0 then List.replicate 100 wOld else [wFin]

/-! ## Helper lemmas: `inspectTask` by state -/

theorem inspectTask_running (t : Task) (h : t.state = TaskRunning) :
    inspectTask t = ([.stateShown t.state, .logPageOpened t], none) := by
  simp only [inspectTask, h]
  rw [if_pos trivial]

theorem inspectTask_staging (t : Task) (h : t.state = TaskStaging) :
    inspectTask t = ([.stateShown t.state], none) := by
  simp only [inspectTask, h]
  rw [if_neg (by decide), if_pos trivial]

theorem inspectTask_finished (t : Task) (t0 t1 : Int) (h : t.state = TaskFinished)
    (h0 : t.started = some t0) (h1 : t.stopped = some t1) :
    inspectTask t = ([.stateShown t.state, .logPageOpened t,
      .finishedMsg (t1 - t0), .logsPrinted t], some (.ok ())) := by
  simp only [inspectTask, h, Task.Duration, h0, h1]
  rw [if_neg (by decide), if_neg (by decide), if_pos trivial]

theorem inspectTask_failed (t : Task) (t0 t1 : Int) (h : t.state = TaskFailed)
    (h0 : t.started = some t0) (h1 : t.stopped = some t1) :
    inspectTask t = ([.stateShown t.state, .logPageOpened t, .logsPrinted t],
      some (.error (.taskFailed (t1 - t0)))) := by
  simp only [inspectTask, h, Task.Duration, h0, h1]
  rw [if_neg (by decide), if_neg (by decide), if_neg (by decide), if_pos trivial]

theorem inspectTask_killed (t : Task) (t0 t1 : Int) (h : t.state = TaskKilled)
    (h0 : t.started = some t0) (h1 : t.stopped = some t1) :
    inspectTask t = ([.stateShown t.state], some (.error (.taskKilled (t1 - t0)))) := by
  simp only [inspectTask, h, Task.Duration, h0, h1]
  rw [if_neg (by decide), if_neg (by decide), if_neg (by decide),
    if_neg (by decide), if_pos trivial]

theorem inspectTask_default (t : Task)
    (h : t.state ∉ ([TaskRunning, TaskStaging, TaskFinished, TaskFailed,
      TaskKilled] : List String)) :
    inspectTask t = ([.stateShown t.state],
      some (.error (.unhandledState t.state))) := by
  simp only [List.mem_cons, List.not_mem_nil, or_false, not_or] at h
  obtain ⟨h1, h2, h3, h4, h5⟩ := h
  simp only [inspectTask]
  rw [if_neg h1, if_neg h2, if_neg h3, if_neg h4, if_neg h5]

/-! ## Helper lemmas: unrolling `handleTask` -/

theorem handleTask_cons_done (count : Nat) (p : Poll) (ps : List Poll)
    (r : Except TaskError Unit) (h : (handleOne count p).2 = some r) :
    handleTask count (p :: ps) = ((handleOne count p).1, some r) := by
  rcases hE : handleOne count p with ⟨evs, o⟩
  rw [hE] at h
  simp only at h
  subst h
  simp [handleTask, hE]

theorem handleTask_cons_next (count : Nat) (p : Poll) (ps : List Poll)
    (h : (handleOne count p).2 = none) :
    handleTask count (p :: ps) =
      ((handleOne count p).1 ++ (handleTask count ps).1, (handleTask count ps).2) := by
  rcases hE : handleOne count p with ⟨evs, o⟩
  rw [hE] at h
  simp only at h
  subst h
  simp [handleTask, hE]

theorem handleTask_singleton (count : Nat) (p : Poll) :
    handleTask count [p] = handleOne count p := by
  rcases hE : handleOne count p with ⟨evs, o⟩
  cases o <;> simp [handleTask, hE]

theorem handleOne_baseline (count : Nat) (base : List Task)
    (hb : base.length = count) :
    handleOne count (Poll.ok base) = ([Event.progressDot], none) := by
  simp [handleOne, hb]

theorem handleOne_new_record (count : Nat) (t : Task) (rest : List Task)
    (hr : rest.length = count) :
    handleOne count (Poll.ok (t :: rest)) = inspectTask t := by
  simp only [handleOne, List.length_cons, hr]
  simp

theorem handleTask_baseline_step (count : Nat) (base : List Task) (ps : List Poll)
    (hb : base.length = count) :
    handleTask count (Poll.ok base :: ps) =
      (Event.progressDot :: (handleTask count ps).1, (handleTask count ps).2) := by
  rw [handleTask_cons_next count _ ps (by rw [handleOne_baseline count base hb])]
  rw [handleOne_baseline count base hb]
  simp

theorem inspectTask_finished_err (t : Task) (h : t.state = TaskFinished)
    (hd : t.Duration = .error .missingTimestamp) :
    inspectTask t = ([.stateShown t.state, .logPageOpened t],
      some (.error .missingTimestamp)) := by
  simp only [inspectTask, h, hd]
  rw [if_neg (by decide), if_neg (by decide), if_pos trivial]

/-! ## Claim theorems -/

/-- Claim C1: for every baseline count `N`, if the pre-submission fetch
returned `N` same-named records and, after any number of polls still
seeing `N` records, a poll returns `N+1` records, `handleTask` selects the
first element of that fetched sequence as the tracked job and its events
and result from then on are exactly those of inspecting that one record
(`inspectTask` of the head), regardless of `N`. -/
theorem handleTask_selects_first_of_new (count k : Nat) (base rest : List Task)
    (t : Task) (hb : base.length = count) (hr : rest.length = count) :
    handleTask count (List.replicate k (Poll.ok base) ++ [Poll.ok (t :: rest)]) =
      (List.replicate k Event.progressDot ++ (inspectTask t).1,
        (inspectTask t).2) := by
  induction k with
  | zero =>
    simp only [List.replicate_zero, List.nil_append]
    rw [handleTask_singleton, handleOne_new_record count t rest hr]
  | succ n ih =>
    simp only [List.replicate_succ, List.cons_append]
    rw [handleTask_baseline_step count base _ hb, ih]

/-- Witness for C1 at `N = 1`, two baseline polls, then a poll with 2
records: the head record is the one inspected. -/
theorem handleTask_selects_first_of_new_witness :
    handleTask 1 (List.replicate 2 (Poll.ok [wOld]) ++ [Poll.ok (wFin :: [wOld])]) =
      (List.replicate 2 Event.progressDot ++ (inspectTask wFin).1,
        (inspectTask wFin).2) :=
  handleTask_selects_first_of_new 1 2 [wOld] [wOld] wFin rfl rfl

/-- Claim C2: on the selected record, each of the five known state values
leads to a defined action — continue polling for Staging/Running, success
for Finished, an error carrying the duration for Failed and Killed — and
any other state string ends the loop immediately with an UnhandledState
error, whatever polls would have followed. -/
theorem handleTask_state_totality (count : Nat) (t : Task) (t0 t1 : Int)
    (rest : List Task) (ps : List Poll) :
    ((t.state = TaskStaging ∨ t.state = TaskRunning) →
      (inspectTask t).2 = none) ∧
    (t.state = TaskFinished → t.started = some t0 → t.stopped = some t1 →
      (inspectTask t).2 = some (.ok ())) ∧
    (t.state = TaskFailed → t.started = some t0 → t.stopped = some t1 →
      (inspectTask t).2 = some (.error (.taskFailed (t1 - t0)))) ∧
    (t.state = TaskKilled → t.started = some t0 → t.stopped = some t1 →
      (inspectTask t).2 = some (.error (.taskKilled (t1 - t0)))) ∧
    (t.state ∉ ([TaskRunning, TaskStaging, TaskFinished, TaskFailed,
        TaskKilled] : List String) → rest.length = count →
      handleTask count (Poll.ok (t :: rest) :: ps) =
        ([.stateShown t.state], some (.error (.unhandledState t.state)))) := by
  refine ⟨?_, ?_, ?_, ?_, ?_⟩
  · rintro (h | h)
    · simp [inspectTask_staging t h]
    · simp [inspectTask_running t h]
  · intro h h0 h1
    simp [inspectTask_finished t t0 t1 h h0 h1]
  · intro h h0 h1
    simp [inspectTask_failed t t0 t1 h h0 h1]
  · intro h h0 h1
    simp [inspectTask_killed t t0 t1 h h0 h1]
  · intro h hr
    have hOne : handleOne count (Poll.ok (t :: rest)) =
        ([.stateShown t.state], some (.error (.unhandledState t.state))) := by
      rw [handleOne_new_record count t rest hr, inspectTask_default t h]
    rw [handleTask_cons_done count _ ps _ (by rw [hOne])]
    rw [hOne]

/-- Witness for C2: a finished record with timestamps 0 and 12 resolves to
success, and an unrecognized state string ends the run at once. -/
theorem handleTask_state_totality_witness :
    (inspectTask wFin).2 = some (.ok ()) ∧
    handleTask 0 [Poll.ok [wLost], Poll.ok [wFin]] =
      ([.stateShown wLost.state], some (.error (.unhandledState wLost.state))) := by
  obtain ⟨_, _, _, _, hdef⟩ :=
    handleTask_state_totality 0 wLost 0 12 [] [Poll.ok [wFin]]
  exact ⟨(handleTask_state_totality 0 wFin 0 12 [] []).2.1 rfl rfl rfl,
    hdef (by decide) rfl⟩

/-- Claim C9: when every poll returns a record count that is neither the
baseline nor baseline+1, the monitor neither selects a record nor fails nor
prints anything: every finite prefix of such a polling sequence leaves
`handleTask` with no events and no result, so a catalog that never again
returns exactly baseline+1 records keeps the loop running forever. -/
theorem handleTask_silent_on_other_counts (count : Nat) (polls : List Poll)
    (h : ∀ p ∈ polls, ∃ ts, p = Poll.ok ts ∧ ts.length ≠ count ∧
      ts.length ≠ count + 1) :
    handleTask count polls = ([], none) := by
  induction polls with
  | nil => rfl
  | cons p ps ih =>
    obtain ⟨ts, hp, hne, hne1⟩ := h p (List.mem_cons_self p ps)
    subst hp
    have hOne : handleOne count (Poll.ok ts) = ([], none) := by
      simp [handleOne, hne, hne1]
    rw [handleTask_cons_next count _ ps (by rw [hOne])]
    rw [hOne, ih fun q hq => h q (List.mem_cons_of_mem _ hq)]
    simp

/-- Witness for C9: with baseline 0, polls of three records each produce no
event and no result. -/
theorem handleTask_silent_on_other_counts_witness :
    handleTask 0 [Poll.ok [wOld, wFin, wRun], Poll.ok [wOld, wFin, wRun]] =
      ([], none) :=
  handleTask_silent_on_other_counts 0
    [Poll.ok [wOld, wFin, wRun], Poll.ok [wOld, wFin, wRun]] (by
      intro p hp
      simp only [List.mem_cons, List.not_mem_nil, or_false, or_self] at hp
      subst hp
      exact ⟨[wOld, wFin, wRun], rfl, by decide, by decide⟩)

/-- Counterexample to C6: a run that observes Running on two consecutive
polls and then Finished triggers the `openLogPage` side effect three times
(once per Running observation and once more on Finished), not at most
once. -/
theorem handleTask_opens_more_than_once :
    ¬ (((handleTask 0 [Poll.ok [wRun], Poll.ok [wRun], Poll.ok [wFin]]).1.filter
      isOpenEvent).length ≤ 1) := by decide

/-- Claim C6 as amended: the log-page side effect is triggered on every
poll that observes the tracked job Running — `k` consecutive Running polls
trigger it exactly `k` times while the loop keeps polling — not once per
run. -/
theorem handleTask_opens_once_per_running_poll (count k : Nat) (t : Task)
    (rest : List Task) (hr : rest.length = count) (hs : t.state = TaskRunning) :
    ((handleTask count (List.replicate k (Poll.ok (t :: rest)))).1.filter
        isOpenEvent).length = k ∧
    (handleTask count (List.replicate k (Poll.ok (t :: rest)))).2 = none := by
  have hOne : handleOne count (Poll.ok (t :: rest)) =
      ([.stateShown t.state, .logPageOpened t], none) := by
    rw [handleOne_new_record count t rest hr, inspectTask_running t hs]
  induction k with
  | zero => simp [handleTask]
  | succ n ih =>
    simp only [List.replicate_succ]
    rw [handleTask_cons_next count _ _ (by rw [hOne])]
    rw [hOne]
    obtain ⟨ih1, ih2⟩ := ih
    refine ⟨?_, by simpa using ih2⟩
    simp only [List.filter_append, List.length_append, ih1]
    simp [isOpenEvent]
    omega

/-- Witness for the amended C6: three consecutive Running polls at baseline
1 trigger the side effect exactly three times. -/
theorem handleTask_opens_once_per_running_poll_witness :
    ((handleTask 1 (List.replicate 3 (Poll.ok (wRun :: [wOld])))).1.filter
        isOpenEvent).length = 3 ∧
    (handleTask 1 (List.replicate 3 (Poll.ok (wRun :: [wOld])))).2 = none :=
  handleTask_opens_once_per_running_poll 1 3 wRun [wOld] rfl rfl

/-- Claim C7: a terminal record with start `t0` and stop `t1 > t0` has
duration `t1 - t0` seconds; a record missing either timestamp fails with
MissingTimestamp, and the monitor propagates that as a fatal error (the
loop returns the error, reporting no duration) rather than reporting zero. -/
theorem Task_Duration_spec (t : Task) (t0 t1 : Int) (h0 : t.started = some t0)
    (h1 : t.stopped = some t1) (_hlt : t0 < t1) :
    t.Duration = .ok (t1 - t0) ∧
    (∀ u : Task, u.started = none ∨ u.stopped = none →
      u.Duration = .error .missingTimestamp) ∧
    (∀ u : Task, u.state = TaskFinished →
      u.Duration = .error .missingTimestamp →
      inspectTask u = ([.stateShown u.state, .logPageOpened u],
        some (.error .missingTimestamp))) := by
  refine ⟨by simp [Task.Duration, h0, h1], ?_, ?_⟩
  · intro u hu
    rcases hs : u.started with _ | a <;> rcases hp : u.stopped with _ | b <;>
      simp_all [Task.Duration]
  · intro u hu hd
    exact inspectTask_finished_err u hu hd

/-- Witness for C7: start 0, stop 12 gives duration 12; the record with no
timestamps fails with MissingTimestamp and ends the monitor with that
error. -/
theorem Task_Duration_spec_witness :
    wFin.Duration = Except.ok (12 - 0) ∧
    wNoTs.Duration = Except.error DurationError.missingTimestamp ∧
    inspectTask wNoTs = ([.stateShown wNoTs.state, .logPageOpened wNoTs],
      some (.error .missingTimestamp)) := by
  obtain ⟨a, b, c⟩ := Task_Duration_spec wFin 0 12 rfl rfl (by decide)
  exact ⟨a, b wNoTs (Or.inl rfl), c wNoTs rfl (b wNoTs (Or.inl rfl))⟩

theorem goFindAllLower_chars (l : List Char) (st : Option (List Char))
    (hst : ∀ acc, st = some acc → ∀ c ∈ acc, isLowerAZ c = true) :
    ∀ r ∈ goFindAllLower l st, ∀ c ∈ r, isLowerAZ c = true := by
  induction l generalizing st with
  | nil =>
    rcases st with _ | acc
    · intro r hr
      simp only [goFindAllLower, List.mem_singleton] at hr
      subst hr
      simp
    · intro r hr
      simp only [goFindAllLower, List.mem_singleton] at hr
      subst hr
      intro c hc
      exact hst acc rfl c (by simpa using hc)
  | cons a rest ih =>
    rcases st with _ | acc <;> by_cases ha : isLowerAZ a = true
    · simp only [goFindAllLower, ha, if_true]
      exact ih (some [a]) (by
        intro acc2 h2 c hc
        rw [Option.some.injEq] at h2
        subst h2
        simp only [List.mem_singleton] at hc
        subst hc
        exact ha)
    · simp only [goFindAllLower, ha, if_false, Bool.false_eq_true]
      intro r hr
      rcases List.mem_cons.1 hr with h | h
      · subst h; simp
      · exact ih none (by simp) r h
    · simp only [goFindAllLower, ha, if_true]
      exact ih (some (a :: acc)) (by
        intro acc2 h2 c hc
        rw [Option.some.injEq] at h2
        subst h2
        rcases List.mem_cons.1 hc with h | h
        · subst h; exact ha
        · exact hst acc rfl c h)
    · simp only [goFindAllLower, ha, if_false, Bool.false_eq_true]
      intro r hr
      rcases List.mem_cons.1 hr with h | h
      · subst h
        intro c hc
        exact hst acc rfl c (by simpa using hc)
      · exact ih none (by simp) r h

theorem goFindAllLower_no_lower (l : List Char)
    (h : ∀ c ∈ l, isLowerAZ c = false) :
    ∀ r ∈ goFindAllLower l none, r = [] := by
  induction l with
  | nil =>
    intro r hr
    simpa [goFindAllLower] using hr
  | cons a rest ih =>
    have ha := h a (List.mem_cons_self a rest)
    intro r hr
    simp only [goFindAllLower, ha, Bool.false_eq_true, if_false] at hr
    rcases List.mem_cons.1 hr with h2 | h2
    · exact h2
    · exact ih (fun c hc => h c (List.mem_cons_of_mem _ hc)) r h2

theorem goJoinL_foldl_mem (sep x : List Char) (xs : List (List Char)) (c : Char)
    (hc : c ∈ xs.foldl (fun a b => a ++ sep ++ b) x) :
    c ∈ x ∨ c ∈ sep ∨ ∃ b ∈ xs, c ∈ b := by
  induction xs generalizing x with
  | nil => exact Or.inl (by simpa using hc)
  | cons y ys ih =>
    rcases ih (x ++ sep ++ y) (by simpa using hc) with h | h | h
    · rcases List.mem_append.1 h with h2 | h2
      · rcases List.mem_append.1 h2 with h3 | h3
        · exact Or.inl h3
        · exact Or.inr (Or.inl h3)
      · exact Or.inr (Or.inr ⟨y, List.mem_cons_self _ _, h2⟩)
    · exact Or.inr (Or.inl h)
    · obtain ⟨b, hb, hcb⟩ := h
      exact Or.inr (Or.inr ⟨b, List.mem_cons_of_mem _ hb, hcb⟩)

theorem goJoinL_mem (elems : List (List Char)) (sep : List Char) (c : Char)
    (hc : c ∈ goJoinL elems sep) : (∃ x ∈ elems, c ∈ x) ∨ c ∈ sep := by
  match elems with
  | [] => simp [goJoinL] at hc
  | x :: xs =>
    rcases goJoinL_foldl_mem sep x xs c (by simpa [goJoinL] using hc) with
      h | h | h
    · exact Or.inl ⟨x, List.mem_cons_self _ _, h⟩
    · exact Or.inr h
    · obtain ⟨b, hb, hcb⟩ := h
      exact Or.inl ⟨b, List.mem_cons_of_mem _ hb, hcb⟩

theorem goTrimSpace_subset (tok : List Char) :
    ∀ c ∈ goTrimSpace tok, c ∈ tok := by
  intro c hc
  simp only [goTrimSpace, List.mem_reverse] at hc
  have h1 := (List.dropWhile_sublist goIsSpace).subset hc
  simp only [List.mem_reverse] at h1
  exact (List.dropWhile_sublist goIsSpace).subset h1

theorem tokenSegment_chars (tok : List Char) :
    ∀ c ∈ tokenSegment tok, isLowerAZ c = true ∨ c = '-' := by
  intro c hc
  rcases goJoinL_mem _ _ c hc with ⟨r, hr, hcr⟩ | h
  · exact Or.inl (goFindAllLower_chars _ none (by simp) r hr c hcr)
  · simp only [List.mem_singleton] at h
    exact Or.inr h

/-- Counterexample to C3: the derived name for command `rake stuff:junk`,
app `foo`, env `production` is not `foo-production-rake-stuffjunk` (the
token `stuff:junk` contributes `stuff-junk`, its two lowercase runs joined
with the separator, not `stuffjunk`), and a token with no lowercase letters
such as `9` does not contribute an empty segment (the command `x 9`
sanitizes to `x--`, not `x-`). -/
theorem TaskName_counterexample :
    TaskName "foo" "production" "rake stuff:junk" ≠
      "foo-production-rake-stuffjunk" ∧
    sanitizedCommand "x 9" ≠ "x-" := by
  constructor
  · decide
  · decide

/-- Claim C3 as amended: the derived name joins app, env and the per-token
lowercase extraction of the command with `-`, where each token contributes
its lowercase runs joined with `-` (so `stuff:junk` contributes
`stuff-junk` and the example name is `foo-production-rake-stuff-junk`);
the sanitized command contains only lowercase letters and separators; and
a token with no lowercase letters contributes a segment consisting only of
separator characters (empty only for an empty token). -/
theorem TaskName_amended :
    TaskName "foo" "production" "rake stuff:junk" =
      "foo-production-rake-stuff-junk" ∧
    (∀ cmd : String, ∀ c ∈ (sanitizedCommand cmd).toList,
      isLowerAZ c = true ∨ c = '-') ∧
    (∀ tok : List Char, (∀ c ∈ tok, isLowerAZ c = false) →
      ∀ c ∈ tokenSegment tok, c = '-') := by
  refine ⟨by decide, ?_, ?_⟩
  · intro cmd c hc
    rcases goJoinL_mem _ _ c hc with ⟨x, hx, hcx⟩ | h
    · obtain ⟨tok, _, rfl⟩ := List.mem_map.1 hx
      exact tokenSegment_chars tok c hcx
    · simp only [List.mem_singleton] at h
      exact Or.inr h
  · intro tok htok c hc
    rcases goJoinL_mem _ _ c hc with ⟨r, hr, hcr⟩ | h
    · have := goFindAllLower_no_lower (goTrimSpace tok)
        (fun d hd => htok d (goTrimSpace_subset tok d hd)) r hr
      subst this
      simp at hcr
    · simpa using h

/-- Witness for the amended C3: the char `r` of the sanitized example
command is lowercase, and the lone character of the segment of token `9`
is the separator. -/
theorem TaskName_amended_witness :
    (isLowerAZ 'r' = true ∨ 'r' = '-') ∧ ('-' = '-') := by
  obtain ⟨_, h2, h3⟩ := TaskName_amended
  exact ⟨h2 "rake stuff:junk" 'r' (by decide),
    h3 ['9'] (by decide) '-' (by decide)⟩

theorem range_succ_map_shift {α : Type} (g : Nat → α) (m : Nat) :
    (List.range (m + 1)).map g = g 0 :: (List.range m).map fun i => g (i + 1) := by
  rw [List.range_succ_eq_map, List.map_cons, List.map_map]
  rfl

theorem fetchPages_aux (server : Nat → List Task) :
    ∀ k off fuel : Nat,
      (∀ i, i < k → (server (off + 100 * i)).length = 100) →
      (server (off + 100 * k)).length < 100 → k < fuel →
      fetchPages server fuel off =
        (((List.range (k + 1)).map fun i => server (off + 100 * i)).flatten,
          (List.range (k + 1)).map fun i => off + 100 * i) := by
  intro k
  induction k with
  | zero =>
    intro off fuel hfull hlast hfuel
    obtain ⟨f, rfl⟩ : ∃ f, fuel = f + 1 := ⟨fuel - 1, by omega⟩
    have hl : (server off).length < 100 := by simpa using hlast
    simp only [fetchPages]
    rw [if_neg (by omega)]
    simp [List.range_succ]
  | succ n ih =>
    intro off fuel hfull hlast hfuel
    obtain ⟨f, rfl⟩ : ∃ f, fuel = f + 1 := ⟨fuel - 1, by omega⟩
    have h0 : (server off).length = 100 := by simpa using hfull 0 (by omega)
    simp only [fetchPages]
    rw [if_pos (by omega)]
    have hfull2 : ∀ i, i < n → (server (off + 100 + 100 * i)).length = 100 := by
      intro i hi
      have h := hfull (i + 1) (by omega)
      have e : off + 100 * (i + 1) = off + 100 + 100 * i := by ring
      rwa [e] at h
    have hlast2 : (server (off + 100 + 100 * n)).length < 100 := by
      have e : off + 100 * (n + 1) = off + 100 + 100 * n := by ring
      rwa [e] at hlast
    have hm1 : ((List.range (n + 1)).map fun i => server (off + 100 + 100 * i)) =
        ((List.range (n + 1)).map fun i => server (off + 100 * (i + 1))) := by
      apply List.map_congr_left
      intro i _
      congr 1
      ring
    have hm2 : ((List.range (n + 1)).map fun i => off + 100 + 100 * i) =
        ((List.range (n + 1)).map fun i => off + 100 * (i + 1)) := by
      apply List.map_congr_left
      intro i _
      ring
    rw [ih (off + 100) f hfull2 hlast2 (by omega), hm1, hm2,
      range_succ_map_shift (fun i => server (off + 100 * i)) (n + 1),
      range_succ_map_shift (fun i => off + 100 * i) (n + 1)]
    simp

/-- Claim C4: when the catalog returns exactly 100 records at every offset
below `100k` and fewer than 100 at offset `100k`, the fetch terminates (the
result is the same for every fuel above `k`, i.e. the loop exits after the
short page), requests exactly the offsets `0, 100, …, 100k` once each, and
accumulates the concatenation of the pages in page order, to which the name
filter is then applied. -/
theorem scheduledTasks_pagination (server : Nat → List Task) (k fuel : Nat)
    (name : String)
    (hfull : ∀ i, i < k → (server (100 * i)).length = 100)
    (hlast : (server (100 * k)).length < 100) (hfuel : k < fuel) :
    fetchPages server fuel 0 =
      (((List.range (k + 1)).map fun i => server (100 * i)).flatten,
        (List.range (k + 1)).map fun i => 100 * i) ∧
    ((fetchPages server fuel 0).2).Nodup ∧
    scheduledTasks server fuel name =
      TasksFor name
        (((List.range (k + 1)).map fun i => server (100 * i)).flatten) := by
  have h := fetchPages_aux server k 0 fuel (by simpa using hfull)
    (by simpa using hlast) hfuel
  have e1 : ((List.range (k + 1)).map fun i => server (0 + 100 * i)) =
      ((List.range (k + 1)).map fun i => server (100 * i)) := by
    apply List.map_congr_left
    intro i _
    congr 1
    omega
  have e2 : ((List.range (k + 1)).map fun i => 0 + 100 * i) =
      ((List.range (k + 1)).map fun i => 100 * i) := by
    apply List.map_congr_left
    intro i _
    omega
  rw [e1, e2] at h
  refine ⟨h, ?_, ?_⟩
  · rw [h]
    have hinj : Function.Injective fun i : Nat => 100 * i := by
      intro a b hab
      simpa using hab
    exact List.Nodup.map hinj (List.nodup_range _)
  · rw [scheduledTasks, h]

/-- Witness for C4: a catalog with one full page at offset 0 and a short
page at offset 100, fetched with fuel 2. -/
theorem scheduledTasks_pagination_witness :
    fetchPages wServer 2 0 =
      (((List.range 2).map fun i => wServer (100 * i)).flatten,
        (List.range 2).map fun i => 100 * i) ∧
    ((fetchPages wServer 2 0).2).Nodup ∧
    scheduledTasks wServer 2 "foo-production-rake-stuff-junk" =
      TasksFor "foo-production-rake-stuff-junk"
        (((List.range 2).map fun i => wServer (100 * i)).flatten) :=
  scheduledTasks_pagination wServer 1 2 "foo-production-rake-stuff-junk"
    (by decide) (by decide) (by decide)

/-- Claim C8: with the baseline fetch and the payload render successful and
a response received, the submission enters the monitor loop if and only if
the scheduler answered 204 No Content; any other status returns an error
carrying the response body, and a rejected submission is never a monitored
one. -/
theorem launch_accepted_iff_no_content (ts : List Task) (cj : String)
    (resp : PostResp) (polls : List Poll) :
    (resp.statusCode = 204 →
      launchChronosOneOffCommand (some ts) (.ok cj) (some resp) polls =
        .monitored (handleTask ts.length polls)) ∧
    (resp.statusCode ≠ 204 →
      launchChronosOneOffCommand (some ts) (.ok cj) (some resp) polls =
        .rejected resp.body) ∧
    (∀ (body : String) (r : List Event × Option (Except TaskError Unit)),
      LaunchOutcome.rejected body ≠ LaunchOutcome.monitored r) := by
  refine ⟨?_, ?_, ?_⟩
  · intro h
    simp [launchChronosOneOffCommand, h]
  · intro h
    simp [launchChronosOneOffCommand, h]
  · intro body r hc
    exact LaunchOutcome.noConfusion hc

/-- Witness for C8: a 204 response enters the monitor with the baseline
count 1; a 500 response with body `boom` is rejected with that body. -/
theorem launch_accepted_iff_no_content_witness :
    launchChronosOneOffCommand (some [wOld]) (.ok "{}")
        (some { statusCode := 204, body := "" }) [Poll.ok [wFin, wOld]] =
      .monitored (handleTask 1 [Poll.ok [wFin, wOld]]) ∧
    launchChronosOneOffCommand (some [wOld]) (.ok "{}")
        (some { statusCode := 500, body := "boom" }) [Poll.ok [wFin, wOld]] =
      .rejected "boom" := by
  refine ⟨?_, ?_⟩
  · exact (launch_accepted_iff_no_content [wOld] "{}"
      { statusCode := 204, body := "" } [Poll.ok [wFin, wOld]]).1 rfl
  · exact (launch_accepted_iff_no_content [wOld] "{}"
      { statusCode := 500, body := "boom" } [Poll.ok [wFin, wOld]]).2.1 (by decide)

/-- Counterexample to C5: a failure to resolve the log directory does not
degrade to "no logs shown" — `printLogs` prints the diagnostic and then
calls `os.Exit(-1)`, aborting the process instead of proceeding. -/
theorem printLogs_dir_error_exits :
    printLogs TaskFinished (Except.error "no such file") (Except.ok "10.0.0.1")
        (some { statusCode := 200, status := "200 OK"
                decoded := some { data := "ok" } }) = PrintLogsOutcome.exitProcess ∧
    PrintLogsOutcome.exitProcess ≠ PrintLogsOutcome.printed "stdout" false ["ok"] := by
  exact ⟨rfl, by decide⟩

/-- Claim C5 as amended: worker-host resolution errors, non-OK HTTP
statuses with a response present, and payload decode errors are non-fatal:
whenever a response is present — whatever its status code and whether or
not its body decodes — `printLogs` proceeds to the printing outcome,
recording the `could not fetch logs` diagnostic exactly when the status is
not 200 OK, and proceeds with empty log data on a decode failure; but a
log-directory resolution error exits the process in both `printLogs` and
`openLogPage`, and a transport error with no response dereferences the
absent response instead of failing softly. -/
theorem printLogs_soft_failures (st dir ip e : String) (r : GetResp) (b : Bool) :
    printLogs st (.error e) (.ok ip) (some r) = .exitProcess ∧
    openLogPage (.error e) b = .exitProcess ∧
    printLogs st (.ok dir) (.error e) (some r) = .softFail ∧
    (∃ lines : List String, printLogs st (.ok dir) (.ok ip) (some r) =
      .printed (if st = TaskFinished then "stdout" else "stderr")
        (decide (r.statusCode ≠ 200)) lines) ∧
    (r.decoded = none →
      printLogs st (.ok dir) (.ok ip) (some r) =
        .printed (if st = TaskFinished then "stdout" else "stderr")
          (decide (r.statusCode ≠ 200)) [""]) ∧
    printLogs st (.ok dir) (.ok ip) none = .nilPanic := by
  refine ⟨rfl, rfl, rfl, ⟨_, rfl⟩, ?_, rfl⟩
  intro hdec
  simp [printLogs, hdec, containsCpp, containsSub, splitOnChar]

/-- Witness for the amended C5: a decode failure on a 500 response from a
failed task prints the diagnostic and the empty data on stderr without
aborting. -/
theorem printLogs_soft_failures_witness :
    printLogs TaskFailed (.ok "/tmp/dir") (.ok "10.0.0.1")
        (some { statusCode := 500, status := "500 Internal Server Error",
                decoded := none }) =
      .printed (if TaskFailed = TaskFinished then "stdout" else "stderr")
        true [""] := by
  have h := (printLogs_soft_failures TaskFailed "/tmp/dir" "10.0.0.1" "boom"
    { statusCode := 500, status := "500 Internal Server Error",
      decoded := none } false).2.2.2.2.1 rfl
  simpa using h

/-- Claim C10: when the log-file GET returns a transport error (no response
value present), `printLogs` still enters the diagnostic branch and reads
the absent response's status (and would then decode its body): the model's
outcome is the nil-pointer dereference, not a soft return. -/
theorem printLogs_nil_response_deref (st dir ip : String) :
    printLogs st (.ok dir) (.ok ip) none = .nilPanic ∧
    PrintLogsOutcome.nilPanic ≠ PrintLogsOutcome.softFail := by
  exact ⟨rfl, by decide⟩

/-- Witness for C10: the transport-error case on a finished task hits the
nil dereference. -/
theorem printLogs_nil_response_deref_witness :
    printLogs TaskFinished (.ok "/tmp/dir") (.ok "10.0.0.1") none =
      PrintLogsOutcome.nilPanic :=
  (printLogs_nil_response_deref TaskFinished "/tmp/dir" "10.0.0.1").1

end Duncan
